import Mathlib

/-!
Verification of the platform-api repository: a shallow embedding of the
slug/domain utilities, the version service (create, update, delete,
promote), the deployment-platform promotion client, and the async app
setup orchestrator, together with theorems settling the frozen claims.

Go strings are modelled as lists of characters; the relational store is
modelled as in-memory tables; external systems (deployment platform,
AI endpoint, process launches, insert/update success) are modelled as
explicit oracle parameters.
-/

set_option maxHeartbeats 1000000
set_option linter.unusedVariables false

namespace PlatformApi

/-- Model of a Go string: a list of characters. -/
abbrev GoStr := List Char

/-- ASCII string literal to GoStr. -/
def gstr (x : String) : GoStr := x.data

-- String constants used by the services (from the source).
def strCompleted : GoStr := ("completed").data
def strPromoted : GoStr := ("promoted").data
def strPending : GoStr := ("pending").data
def strBuilding : GoStr := ("building").data
def strMyApp : GoStr := ("MyApp").data
def strMyAppDisplay : GoStr := ("My App").data
def strOther : GoStr := ("other").data
def strBlue : GoStr := ("blue").data
def strAppFallback : GoStr := ("app").data
def strKeywordApp : GoStr := ("app").data
def strUnknownEmail : GoStr := ("unknown@example.com").data
def strDomainTail : GoStr := (".rapidbuild.app").data

/-! ## Domain Namer (src/config/migration_add_production_url.sql, utils part)

Slugify and GenerateProductionDomain, translated step by step from the
Go source in package utils. -/

/-- Model of strings.ToLower restricted to the ASCII range (the inputs
relevant here are ASCII; every non-ASCII character is removed by the
slug filter in any case, on both sides of every comparison below). -/
def lowerStr (s : GoStr) : GoStr := s.map Char.toLower

/-- Model of strings.ReplaceAll(s, " ", "-"): a one-character pattern and
a one-character replacement, hence a character map. Only the space
character U+0020 is replaced, exactly as in the source. -/
def replaceSpaces (s : GoStr) : GoStr :=
  s.map (fun c => if c = ' ' then '-' else c)

/-- Characters kept by the regular expression [^a-z0-9-]+ removal. -/
def isSlugChar (c : Char) : Bool :=
  ('a' ≤ c && c ≤ 'z') || ('0' ≤ c && c ≤ '9') || c = '-'

/-- Model of reg.ReplaceAllString(s, "") for the pattern [^a-z0-9-]+:
replacing every maximal run of disallowed characters by the empty string
is exactly removing every disallowed character. -/
def removeNonSlug (s : GoStr) : GoStr := s.filter isSlugChar

/-- Model of reg.ReplaceAllString(s, "-") for the pattern -+: every
maximal run of hyphens becomes a single hyphen. The flag records whether
the previous character was a hyphen. -/
def collapseHyphensAux : Bool → GoStr → GoStr
  | _, [] => []
  | prev, c :: cs =>
    if c = '-' then
      if prev then collapseHyphensAux true cs
      else '-' :: collapseHyphensAux true cs
    else c :: collapseHyphensAux false cs

def collapseHyphens (s : GoStr) : GoStr := collapseHyphensAux false s

/-- Model of strings.Trim(s, "-"): drop hyphens from both ends. -/
def trimHyphens (s : GoStr) : GoStr :=
  ((s.dropWhile (fun c => c = '-')).reverse.dropWhile (fun c => c = '-')).reverse

/-- Slugify, from the Go source: lowercase, replace spaces with hyphens,
remove characters outside [a-z0-9-], collapse hyphen runs, trim hyphens. -/
def Slugify (text : GoStr) : GoStr :=
  trimHyphens (collapseHyphens (removeNonSlug (replaceSpaces (lowerStr text))))

/-- GenerateProductionDomain, from the Go source: slug of the name with
fallback "app", hyphen-stripped identifier cut to its last 6 characters,
joined as slug-suffix.rapidbuild.app. -/
def GenerateProductionDomain (appName appID : GoStr) : GoStr :=
  let slug0 := Slugify appName
  let slug := if slug0 = [] then strAppFallback else slug0
  let cleanID := appID.filter (fun c => !(c = '-'))
  let suffix := if 6 ≤ cleanID.length then cleanID.drop (cleanID.length - 6) else cleanID
  slug ++ ('-' :: suffix) ++ strDomainTail

/-! ## Spec-side Domain Namer

Modelled from the words of the spec for the refinement claim about the
Domain Namer: the spec says whitespace runs are replaced with single
hyphens, and the suffix is the last 6 characters of the hyphen-stripped
identifier (or the whole string when shorter). -/

/-- Spec-side step: replace every maximal whitespace run with a single
hyphen (the spec says whitespace, not only the space character). -/
def replaceWhitespaceRunsAux : Bool → GoStr → GoStr
  | _, [] => []
  | prev, c :: cs =>
    if c.isWhitespace then
      if prev then replaceWhitespaceRunsAux true cs
      else '-' :: replaceWhitespaceRunsAux true cs
    else c :: replaceWhitespaceRunsAux false cs

/-- Slugify as the spec words it: lower-case, replace whitespace runs
with single hyphens, strip characters outside [a-z0-9-], collapse
repeated hyphens, trim leading and trailing hyphens. -/
def slugifySpecWS (text : GoStr) : GoStr :=
  trimHyphens (collapseHyphens (removeNonSlug (replaceWhitespaceRunsAux false (lowerStr text))))

/-- Domain Namer as the spec words it, built on the whitespace-run slug;
the suffix is written as the reversed 6-character take of the reversed
hyphen-stripped identifier, which is the last 6 characters or the whole
string when shorter. -/
def generateProductionDomainSpecWS (appName appID : GoStr) : GoStr :=
  let slug0 := slugifySpecWS appName
  let slug := if slug0 = [] then strAppFallback else slug0
  let cleanID := appID.filter (fun c => !(c = '-'))
  let suffix := (cleanID.reverse.take 6).reverse
  slug ++ ('-' :: suffix) ++ strDomainTail

/-- Spec-side amended step: replace every maximal run of space
characters with a single hyphen; other whitespace is not hyphenated
(it is stripped later with the other disallowed characters). -/
def replaceSpaceRunsAux : Bool → GoStr → GoStr
  | _, [] => []
  | prev, c :: cs =>
    if c = ' ' then
      if prev then replaceSpaceRunsAux true cs
      else '-' :: replaceSpaceRunsAux true cs
    else c :: replaceSpaceRunsAux false cs

/-- Slugify as amended: space runs (only) become single hyphens. -/
def slugifySpecAmended (text : GoStr) : GoStr :=
  trimHyphens (collapseHyphens (removeNonSlug (replaceSpaceRunsAux false (lowerStr text))))

/-- Domain Namer as amended: the slug of the amended pipeline, with the
same fallback, suffix and concatenation as the spec describes. -/
def generateProductionDomainSpecAmended (appName appID : GoStr) : GoStr :=
  let slug0 := slugifySpecAmended appName
  let slug := if slug0 = [] then strAppFallback else slug0
  let cleanID := appID.filter (fun c => !(c = '-'))
  let suffix := (cleanID.reverse.take 6).reverse
  slug ++ ('-' :: suffix) ++ strDomainTail

/-! ## Data model (src/internal/models, as used by the services) -/

/-- A row of the versions table (models.Version). -/
structure GoVersion where
  id : GoStr
  appId : GoStr
  versionNumber : Int
  status : GoStr
  s3CodePath : Option GoStr
  vercelUrl : Option GoStr
  vercelDeployId : Option GoStr
  buildLog : Option GoStr
  errorMessage : Option GoStr
  createdAt : Nat
deriving DecidableEq

/-- A row of the apps table (models.App). -/
structure GoApp where
  id : GoStr
  userId : GoStr
  name : GoStr
  displayName : Option GoStr
  description : Option GoStr
  category : Option GoStr
  colorScheme : Option GoStr
  logo : Option GoStr
  status : GoStr
  prodVersion : Option Int
  productionUrl : Option GoStr
  vercelProjectId : Option GoStr
  createdAt : Nat
  updatedAt : Nat
deriving DecidableEq

/-- The relational store: the apps and versions tables. -/
structure DBState where
  apps : List GoApp
  versions : List GoVersion
deriving DecidableEq

def emptyDB : DBState := { apps := [], versions := [] }

/-! ## Version service (src/internal/services/version_service.go) -/

/-- A value of the Go update map (map from string to the empty
interface): the type assertions in UpdateVersion distinguish plain
strings, pointers to string, and everything else. -/
inductive GoVal
  | vstr (s : GoStr)
  | vptr (s : Option GoStr)
  | vint (n : Int)
  | vother
deriving DecidableEq

/-- The update map, with Go map lookup semantics (at most one entry per
key is ever consulted; the first matching entry models the map entry). -/
abbrev UpdMap := List (GoStr × GoVal)

def mlookup (m : UpdMap) (k : GoStr) : Option GoVal :=
  (m.find? (fun e => e.1 = k)).map (fun e => e.2)

/-- Model of the Go type assertion updates[k].(string). -/
def asStr : Option GoVal → Option GoStr
  | some (GoVal.vstr s) => some s
  | _ => none

/-- Model of the Go type assertion updates[k].(*string). -/
def asPtrStr : Option GoVal → Option (Option GoStr)
  | some (GoVal.vptr s) => some s
  | _ => none

-- Keys recognized by UpdateVersion, in source order.
def keyStatus : GoStr := ("status").data
def keyS3CodePath : GoStr := ("s3_code_path").data
def keyVercelUrl : GoStr := ("vercel_url").data
def keyVercelDeployId : GoStr := ("vercel_deploy_id").data
def keyBuildLog : GoStr := ("build_log").data
def keyErrorMessage : GoStr := ("error_message").data
def keyDeployUrl : GoStr := ("deploy_url").data
def keyS3Key : GoStr := ("s3_key").data

/-- One SET clause of the dynamic UPDATE statement. The two legacy keys
map onto the vercel_url and s3_code_path columns, so they reuse the same
constructors. -/
inductive FieldSet
  | setStatus (x : GoStr)
  | setS3CodePath (x : GoStr)
  | setVercelUrl (x : GoStr)
  | setVercelDeployId (x : GoStr)
  | setBuildLog (x : GoStr)
  | setErrorMessage (x : Option GoStr)
deriving DecidableEq

def optClause {α : Type} (x : Option α) (f : α → FieldSet) : List FieldSet :=
  match x with
  | none => []
  | some a => [f a]

/-- The SET clauses built by UpdateVersion, in source order: status,
s3_code_path, vercel_url, vercel_deploy_id, build_log, error_message
(pointer-to-string assertion), then the legacy deploy_url and s3_key. -/
def setClauses (m : UpdMap) : List FieldSet :=
  optClause (asStr (mlookup m keyStatus)) FieldSet.setStatus ++
  optClause (asStr (mlookup m keyS3CodePath)) FieldSet.setS3CodePath ++
  optClause (asStr (mlookup m keyVercelUrl)) FieldSet.setVercelUrl ++
  optClause (asStr (mlookup m keyVercelDeployId)) FieldSet.setVercelDeployId ++
  optClause (asStr (mlookup m keyBuildLog)) FieldSet.setBuildLog ++
  optClause (asPtrStr (mlookup m keyErrorMessage)) FieldSet.setErrorMessage ++
  optClause (asStr (mlookup m keyDeployUrl)) FieldSet.setVercelUrl ++
  optClause (asStr (mlookup m keyS3Key)) FieldSet.setS3CodePath

/-- Effect of one SET clause on a row. -/
def applyClause (v : GoVersion) : FieldSet → GoVersion
  | FieldSet.setStatus x => { v with status := x }
  | FieldSet.setS3CodePath x => { v with s3CodePath := some x }
  | FieldSet.setVercelUrl x => { v with vercelUrl := some x }
  | FieldSet.setVercelDeployId x => { v with vercelDeployId := some x }
  | FieldSet.setBuildLog x => { v with buildLog := some x }
  | FieldSet.setErrorMessage x => { v with errorMessage := x }

/-- The column a SET clause assigns; the column names coincide with the
non-legacy map keys (the legacy keys already map onto the vercel_url and
s3_code_path clauses when the clauses are built). -/
def clauseColumn : FieldSet → GoStr
  | FieldSet.setStatus _ => keyStatus
  | FieldSet.setS3CodePath _ => keyS3CodePath
  | FieldSet.setVercelUrl _ => keyVercelUrl
  | FieldSet.setVercelDeployId _ => keyVercelDeployId
  | FieldSet.setBuildLog _ => keyBuildLog
  | FieldSet.setErrorMessage _ => keyErrorMessage

/-- Whether the SET clauses target pairwise distinct columns. PostgreSQL
rejects an UPDATE that assigns the same column twice, which the built
statement does when vercel_url is supplied together with its legacy
alias deploy_url, or s3_code_path together with s3_key. -/
def distinctColumns : List FieldSet → Bool
  | [] => true
  | c :: cs => !(cs.any (fun d => clauseColumn d = clauseColumn c)) && distinctColumns cs

inductive UpdErr
  | noFields
  | duplicateColumn
  | noRow
deriving DecidableEq

/-- UpdateVersion: build the SET clauses from the update map; with no
clause fail before any statement is sent to the store; the store then
rejects the statement when two clauses assign one column (the Go code
wraps this store error and the no-row error in the same failed-to-update
message); otherwise the UPDATE with RETURNING fails when no row has the
identifier and otherwise yields the updated row. -/
def updateVersion (st : DBState) (versionID : GoStr) (updates : UpdMap) :
    (Except UpdErr GoVersion) × DBState :=
  let cls := setClauses updates
  if cls = [] then (.error UpdErr.noFields, st)
  else if distinctColumns cls = false then (.error UpdErr.duplicateColumn, st)
  else
    match st.versions.find? (fun v => v.id = versionID) with
    | none => (.error UpdErr.noRow, st)
    | some version =>
      (.ok (cls.foldl applyClause version),
       { st with
          versions := st.versions.map (fun w =>
            if w.id = versionID then cls.foldl applyClause w else w) })

/-- Maximum version number over the versions of one application, 0 when
there are none (SELECT COALESCE(MAX(version_number), 0)). -/
def maxVersionNumber (versions : List GoVersion) (appID : GoStr) : Int :=
  (versions.filter (fun v => v.appId = appID)).foldl (fun m v => max m v.versionNumber) 0

/-- CreateVersion: the next number is the maximum existing number plus
one, and the row is inserted with status pending. The fresh row
identifier (uuid in the source) is a parameter. -/
def createVersion (st : DBState) (now : Nat) (newID appID : GoStr) : GoVersion × DBState :=
  let n := maxVersionNumber st.versions appID + 1
  let v : GoVersion :=
    { id := newID, appId := appID, versionNumber := n, status := strPending,
      s3CodePath := none, vercelUrl := none, vercelDeployId := none,
      buildLog := none, errorMessage := none, createdAt := now }
  (v, { st with versions := st.versions ++ [v] })

inductive DelErr
  | notFound
deriving DecidableEq

/-- DeleteVersion: DELETE WHERE id; an error when no row was affected. -/
def deleteVersion (st : DBState) (versionID : GoStr) : (Except DelErr Unit) × DBState :=
  let remaining := st.versions.filter (fun v => !(v.id = versionID))
  if remaining.length = st.versions.length then (.error DelErr.notFound, st)
  else (.ok (), { st with versions := remaining })

/-! ## Deployment platform client (src/internal/services/vercel_service.go) -/

/-- An HTTP response from the deployment platform. -/
structure HttpResp where
  status : Nat
  body : GoStr
deriving DecidableEq

inductive VercelErr
  | promotionFailed (status : Nat) (body : GoStr)
  | promotionConflict (body : GoStr)
deriving DecidableEq

/-- Does the pattern lead the string. -/
def leadsWith : GoStr → GoStr → Bool
  | [], _ => true
  | _ :: _, [] => false
  | p :: ps, c :: cs => p = c && leadsWith ps cs

/-- Model of strings.Contains(s, pat): the pattern occurs somewhere. -/
def containsSub (pat : GoStr) : GoStr → Bool
  | [] => leadsWith pat []
  | c :: cs => leadsWith pat (c :: cs) || containsSub pat cs

def magicConflictBody : GoStr := ("already the current production deployment").data

/-- PromoteDeployment, response handling from the source: 201 and 202
are success; 409 whose body contains the already-production marker is
success; any other 409 and any other status are errors. -/
def PromoteDeployment (resp : HttpResp) : Except VercelErr Unit :=
  if !(resp.status = 201) && !(resp.status = 202) && !(resp.status = 409) then
    .error (VercelErr.promotionFailed resp.status resp.body)
  else if resp.status = 409 then
    if containsSub magicConflictBody resp.body then .ok ()
    else .error (VercelErr.promotionConflict resp.body)
  else .ok ()

/-! ## Promotion coordinator (PromoteVersion) -/

inductive PromoteErr
  | versionNotFound
  | invalidState (st : GoStr)
  | missingDeployment
  | appFetchFailed
  | missingProject
  | platformFailed (e : VercelErr)
  | finalUpdateFailed (e : UpdErr)
deriving DecidableEq

/-- PromoteVersion, from the source. The deployment platform is an
oracle mapping (project id, deployment id) to the outcome of the
promotion call; the third component of the result lists the platform
calls issued. Each Go early return is an else branch here. -/
def promoteVersion (vercel : GoStr → GoStr → Except VercelErr Unit) (now : Nat)
    (st : DBState) (versionID : GoStr) :
    (Except PromoteErr Unit) × DBState × List (GoStr × GoStr) :=
  match st.versions.find? (fun v => v.id = versionID) with
  | none => (.error PromoteErr.versionNotFound, st, [])
  | some version =>
    if version.status = strCompleted then
      match version.vercelDeployId with
      | none => (.error PromoteErr.missingDeployment, st, [])
      | some deployID =>
        if deployID = [] then (.error PromoteErr.missingDeployment, st, [])
        else
          match st.apps.find? (fun a => a.id = version.appId) with
          | none => (.error PromoteErr.appFetchFailed, st, [])
          | some app =>
            match app.vercelProjectId with
            | none => (.error PromoteErr.missingProject, st, [])
            | some projectID =>
              if projectID = [] then (.error PromoteErr.missingProject, st, [])
              else
                match vercel projectID deployID with
                | .error e => (.error (PromoteErr.platformFailed e), st, [(projectID, deployID)])
                | .ok _ =>
                  let st1 : DBState :=
                    { st with
                       apps := st.apps.map (fun a =>
                         if a.id = version.appId then
                           { a with prodVersion := some version.versionNumber, updatedAt := now }
                         else a) }
                  match updateVersion st1 versionID [(keyStatus, GoVal.vstr strPromoted)] with
                  | (.ok _, st2) => (.ok (), st2, [(projectID, deployID)])
                  | (.error e, st2) => (.error (PromoteErr.finalUpdateFailed e), st2, [(projectID, deployID)])
    else (.error (PromoteErr.invalidState version.status), st, [])

/-! ## App service (src/internal/services/app_service.go) -/

/-- The configuration extracted by the AI stage (AppConfig). -/
structure AppConfig where
  appName : GoStr
  displayName : GoStr
  requiresAuth : Bool
  allowSignup : Bool
  category : GoStr
  keywords : List GoStr
  colorScheme : GoStr
deriving DecidableEq

/-- The fixed fallback configuration substituted when extraction fails. -/
def defaultAppConfig : AppConfig :=
  { appName := strMyApp, displayName := strMyAppDisplay, requiresAuth := true,
     allowSignup := true, category := strOther, keywords := [strKeywordApp],
     colorScheme := strBlue }

/-- Observable outcome of one run of the async setup pipeline: which
configuration was used, what the persistence update wrote, and which of
the later stages executed. -/
structure SetupOutcome where
  usedConfig : AppConfig
  prodUrl : GoStr
  attemptedDbWrite : GoStr × GoStr × GoStr × GoStr × GoStr
  dbUpdateOk : Bool
  emailResolved : Bool
  ownerEmail : Option GoStr
  registryCreateCalled : Bool
  registryName : Option GoStr
  logoLaunched : Bool
deriving DecidableEq

/-- extractConfigAndSetupApp, from the source: on extraction failure
fall back to the default configuration; recompute the hostname; attempt
the persistence update (its write payload is recorded); on persistence
failure the function returns at once; otherwise resolve the owner email
(placeholder on failure), invoke the registry create command (its exit
status is only logged), and launch logo generation. The external
outcomes are oracle parameters. -/
def extractConfigAndSetupApp (appID userID : GoStr)
    (gemini : Except GoStr AppConfig) (dbUpdateOk : Bool)
    (emailLookup : Except GoStr GoStr) (registryOk : Bool) : SetupOutcome :=
  let cfg := match gemini with
    | .error _ => defaultAppConfig
    | .ok c => c
  let prodUrl := GenerateProductionDomain cfg.appName appID
  let write := (cfg.appName, cfg.displayName, cfg.category, cfg.colorScheme, prodUrl)
  if dbUpdateOk then
    let email := match emailLookup with
      | .error _ => strUnknownEmail
      | .ok e => e
    { usedConfig := cfg, prodUrl := prodUrl, attemptedDbWrite := write, dbUpdateOk := true,
       emailResolved := true, ownerEmail := some email,
       registryCreateCalled := true, registryName := some cfg.appName,
       logoLaunched := true }
  else
    { usedConfig := cfg, prodUrl := prodUrl, attemptedDbWrite := write, dbUpdateOk := false,
       emailResolved := false, ownerEmail := none,
       registryCreateCalled := false, registryName := none, logoLaunched := false }

/-- CreateApp, synchronous part: insert the provisional row with
placeholder name, display name, category, color scheme, status building
and the hostname computed from the placeholder name; the row is returned
to the caller before the detached pipeline runs, so the returned record
does not depend on the extraction outcome in any way. -/
def createApp (now : Nat) (appID userID : GoStr) (description : Option GoStr)
    (insertOk : Bool) : Except GoStr GoApp :=
  let tempName := strMyApp
  let productionUrl := GenerateProductionDomain tempName appID
  if insertOk then
    .ok
      { id := appID, userId := userID, name := tempName,
        displayName := some strMyAppDisplay, description := description,
        category := some strOther, colorScheme := some strBlue,
        logo := none, status := strBuilding, prodVersion := none,
        productionUrl := some productionUrl, vercelProjectId := none,
        createdAt := now, updatedAt := now }
  else .error (("failed to create app").data)

/-! ## Operation sequences over the versions table (for the numbering
invariant) -/

inductive VOp
  | vcreate (newID appID : GoStr)
  | vdelete (versionID : GoStr)

def stepOp (st : DBState) : VOp → DBState
  | VOp.vcreate newID appID => (createVersion st 0 newID appID).2
  | VOp.vdelete versionID => (deleteVersion st versionID).2

def runOps (st : DBState) : List VOp → DBState
  | [] => st
  | op :: rest => runOps (stepOp st op) rest

/-- The version numbers of the existing versions of one application, in
table order (creation order, since rows are appended). -/
def appNumbers (st : DBState) (appID : GoStr) : List Int :=
  (st.versions.filter (fun v => v.appId = appID)).map (fun v => v.versionNumber)

/-- The version numbers handed out by the create operations of a
sequence, in order. -/
def assignedNumbers (st : DBState) : List VOp → List Int
  | [] => []
  | VOp.vcreate newID appID :: rest =>
    let r := createVersion st 0 newID appID
    r.1.versionNumber :: assignedNumbers r.2 rest
  | VOp.vdelete versionID :: rest => assignedNumbers (deleteVersion st versionID).2 rest

/-! ## Concrete fixtures for counterexamples and witnesses -/

def fixAppId : GoStr := ("app-1").data
def fixUserId : GoStr := ("user-1").data
def fixVerId : GoStr := ("ver-1").data
def fixDeployId : GoStr := ("dpl-1").data
def fixProjectId : GoStr := ("prj-1").data
def fixV1 : GoStr := ("v-1").data
def fixV2 : GoStr := ("v-2").data
def fixV3 : GoStr := ("v-3").data

def appA : GoApp :=
  { id := fixAppId, userId := fixUserId, name := strMyApp,
     displayName := some strMyAppDisplay, description := none,
     category := some strOther, colorScheme := some strBlue, logo := none,
     status := strBuilding, prodVersion := none, productionUrl := none,
     vercelProjectId := some fixProjectId, createdAt := 0, updatedAt := 0 }

def verCompleted : GoVersion :=
  { id := fixVerId, appId := fixAppId, versionNumber := 1, status := strCompleted,
     s3CodePath := none, vercelUrl := none, vercelDeployId := some fixDeployId,
     buildLog := none, errorMessage := none, createdAt := 0 }

def verPending : GoVersion := { verCompleted with status := strPending }

def stPromotable : DBState := { apps := [appA], versions := [verCompleted] }

def stPending : DBState := { apps := [appA], versions := [verPending] }

def vercelAlwaysOk : GoStr → GoStr → Except VercelErr Unit := fun _ _ => .ok ()

def fixEmail : GoStr := ("owner@example.com").data

def fixUrl1 : GoStr := ("https://one.example").data

def fixUrl2 : GoStr := ("https://two.example").data

/-- Helper: collapsing hyphen runs after filtering does not distinguish
a run of spaces each turned into a hyphen from a single hyphen for the
whole run. The flags track, for each side, whether the previous emitted
or scanned character was a hyphen respectively a space. -/
theorem collapse_filter_space_runs (xs : GoStr) : ∀ b b', (b' = true → b = true) →
    collapseHyphensAux b (removeNonSlug (replaceSpaces xs)) =
      collapseHyphensAux b (removeNonSlug (replaceSpaceRunsAux b' xs)) := by
  induction xs with
  | nil => intro b b' _; rfl
  | cons c cs ih =>
    intro b b' hbb
    by_cases hsp : c = ' '
    · subst hsp
      simp only [replaceSpaces, List.map_cons, replaceSpaceRunsAux, if_pos rfl]
      cases b' with
      | true =>
        have hb := hbb rfl
        subst hb
        simp only [removeNonSlug, List.filter_cons]
        norm_num [isSlugChar, collapseHyphensAux]
        exact ih true true (fun _ => rfl)
      | false =>
        simp only [removeNonSlug, List.filter_cons]
        norm_num [isSlugChar, collapseHyphensAux]
        cases b with
        | true => simpa using ih true true (fun _ => rfl)
        | false => simpa using ih true true (fun _ => rfl)
    · simp only [replaceSpaces, List.map_cons, if_neg hsp, replaceSpaceRunsAux]
      by_cases hk : isSlugChar c = true
      · by_cases hh : c = '-'
        · subst hh
          simp only [removeNonSlug, List.filter_cons, hk, if_pos rfl]
          simp only [collapseHyphensAux, if_pos rfl]
          cases b with
          | true => simpa using ih true false (by simp)
          | false => simpa using ih true false (by simp)
        · simp only [removeNonSlug, List.filter_cons, hk, if_pos rfl]
          simp only [collapseHyphensAux, if_neg hh]
          simpa using ih false false (by simp)
      · simp only [removeNonSlug, List.filter_cons, hk]
        norm_num [hk]
        exact ih b false (by simp)

/-- Helper: the source Slugify agrees with the amended spec slug. -/
theorem slugify_eq_specAmended (s : GoStr) : Slugify s = slugifySpecAmended s := by
  unfold Slugify slugifySpecAmended collapseHyphens
  exact congrArg trimHyphens (collapse_filter_space_runs (lowerStr s) false false (by simp))

/-- Helper: the reversed take of the reverse is the drop from the left. -/
theorem reverse_take_reverse_eq_drop (l : GoStr) (n : Nat) :
    (l.reverse.take n).reverse = l.drop (l.length - n) := by
  rw [List.take_reverse, List.reverse_reverse]

/-- C7 counterexample: the claim says whitespace runs become single
hyphens, but the source replaces only the space character; on the name
consisting of the letter a, a tab and the letter b, the source strips
the tab while the spec wording hyphenates it, so the two hostnames
differ. -/
theorem c7_counterexample :
    GenerateProductionDomain ('a' :: '\t' :: 'b' :: []) (("abc123").data) ≠
      generateProductionDomainSpecWS ('a' :: '\t' :: 'b' :: []) (("abc123").data) := by
  decide

/-- C7 amended: for every input name and identifier, the Domain Namer
lower-cases the name, replaces runs of space characters with single
hyphens (non-space whitespace is stripped with the other disallowed
characters, not hyphenated), strips every character outside [a-z0-9-],
collapses repeated hyphens, trims leading and trailing hyphens, falls
back to the literal app when empty, and concatenates it with a hyphen,
the last 6 characters of the hyphen-stripped identifier (the whole
string when shorter than 6), and the platform domain; it is a pure
total function, so it is deterministic and always returns a string. -/
theorem c7_domain_namer_amended (name id : GoStr) :
    GenerateProductionDomain name id = generateProductionDomainSpecAmended name id := by
  simp only [GenerateProductionDomain, generateProductionDomainSpecAmended]
  rw [slugify_eq_specAmended]
  rw [reverse_take_reverse_eq_drop]
  by_cases h : 6 ≤ (id.filter (fun c => !(c = '-'))).length
  · rw [if_pos h]
  · rw [if_neg h]
    have hz : (id.filter (fun c => !(c = '-'))).length - 6 = 0 := by omega
    rw [hz, List.drop_zero]

/-- C8: GenerateProductionDomain on the name My Cool App!! and the
identifier 2028362b-a14a-43ac-87d8-0e26c7401623 returns exactly
my-cool-app-401623.rapidbuild.app, which is non-empty and contains only
lowercase letters, digits, hyphens and dots. -/
theorem c8_domain_scenario :
    GenerateProductionDomain (("My Cool App!!").data)
        (("2028362b-a14a-43ac-87d8-0e26c7401623").data)
      = ("my-cool-app-401623.rapidbuild.app").data ∧
    GenerateProductionDomain (("My Cool App!!").data)
        (("2028362b-a14a-43ac-87d8-0e26c7401623").data) ≠ [] ∧
    (GenerateProductionDomain (("My Cool App!!").data)
        (("2028362b-a14a-43ac-87d8-0e26c7401623").data)).all
        (fun c => isSlugChar c || c = '.') = true :=
  ⟨by decide, by decide, by decide⟩

/-- Helper: a single SET clause never changes the row identifier. -/
theorem applyClause_id (w : GoVersion) (c : FieldSet) : (applyClause w c).id = w.id := by
  cases c <;> rfl

/-- Helper: folding SET clauses never changes the row identifier. -/
theorem foldl_applyClause_id (cls : List FieldSet) :
    ∀ w : GoVersion, (cls.foldl applyClause w).id = w.id := by
  induction cls with
  | nil => intro w; rfl
  | cons c cs ih =>
    intro w
    rw [List.foldl_cons, ih, applyClause_id]

/-- Helper: after the UPDATE maps the table, the row found under the
identifier is the original row with the clauses applied. -/
theorem find?_map_update (l : List GoVersion) (versionID : GoStr) (version : GoVersion)
    (cls : List FieldSet)
    (hv : l.find? (fun v => v.id = versionID) = some version) :
    (l.map (fun w => if w.id = versionID then cls.foldl applyClause w else w)).find?
      (fun v => v.id = versionID) = some (cls.foldl applyClause version) := by
  rw [List.find?_map]
  have hid : version.id = versionID := by simpa using List.find?_some hv
  have hfun : ((fun v : GoVersion => (v.id = versionID : Bool)) ∘
      (fun w => if w.id = versionID then cls.foldl applyClause w else w)) =
      (fun v : GoVersion => (v.id = versionID : Bool)) := by
    funext w
    by_cases hw : w.id = versionID <;> simp [hw, foldl_applyClause_id]
  rw [hfun, hv]
  simp [hid]

/-- C9 counterexample: the map supplying both vercel_url and the legacy
alias deploy_url holds recognized fields and the row exists, yet the
built statement assigns the vercel_url column twice, the store rejects
the duplicate assignment and Update errors, so at least one recognized
field does not suffice for the full updated row to be returned. -/
theorem c9_counterexample :
    setClauses [(keyVercelUrl, GoVal.vstr fixUrl1), (keyDeployUrl, GoVal.vstr fixUrl2)]
        ≠ [] ∧
    stPromotable.versions.find? (fun v => v.id = fixVerId) = some verCompleted ∧
    updateVersion stPromotable fixVerId
        [(keyVercelUrl, GoVal.vstr fixUrl1), (keyDeployUrl, GoVal.vstr fixUrl2)] =
      (.error UpdErr.duplicateColumn, stPromotable) :=
  ⟨by decide, rfl, rfl⟩

/-- C9 amended: calling version Update with a field set containing zero
recognized fields (recognized keys with plain-string values: status,
s3_code_path, vercel_url, vercel_deploy_id, build_log, the legacy
deploy_url and s3_key, plus error_message with a pointer value) fails
with the no-fields error and returns the store unchanged, so no write is
issued; with at least one recognized field whose SET clauses target
pairwise distinct columns, and an existing row, it returns the full
updated row, which is what the store now holds; when two recognized
fields target one column (vercel_url together with deploy_url, or
s3_code_path together with s3_key) the store rejects the duplicate
assignment and Update returns that error with the store unchanged. -/
theorem c9_update_allow_list (st : DBState) (versionID : GoStr) (m : UpdMap) :
    (setClauses m = [] →
      updateVersion st versionID m = (.error UpdErr.noFields, st)) ∧
    (setClauses m ≠ [] → distinctColumns (setClauses m) = true → ∀ version,
      st.versions.find? (fun v => v.id = versionID) = some version →
      ∃ updated,
        (updateVersion st versionID m).1 = .ok updated ∧
        updated = (setClauses m).foldl applyClause version ∧
        ((updateVersion st versionID m).2.versions.find? (fun v => v.id = versionID)) =
          some updated) ∧
    (distinctColumns (setClauses m) = false →
      updateVersion st versionID m = (.error UpdErr.duplicateColumn, st)) := by
  refine ⟨?_, ?_, ?_⟩
  · intro h
    simp [updateVersion, h]
  · intro h hdist version hv
    refine ⟨(setClauses m).foldl applyClause version, ?_, rfl, ?_⟩
    · simp [updateVersion, h, hdist, hv]
    · simp only [updateVersion, h, if_neg h, hdist, hv]
      simp only [Bool.true_eq_false, if_neg (Bool.false_ne_true ∘ Eq.symm)]
      exact find?_map_update st.versions versionID version (setClauses m) hv
  · intro hdup
    have hne : setClauses m ≠ [] := by
      intro hempty
      rw [hempty] at hdup
      simp [distinctColumns] at hdup
    simp [updateVersion, hne, hdup]

/-- C9 witness: the empty field set is rejected with no write; a
status-only update of the promotable fixture returns the updated row;
and the map pairing s3_code_path with its legacy alias s3_key is
rejected by the store as a duplicate assignment. -/
theorem c9_update_allow_list_witness :
    setClauses [] = [] ∧
    updateVersion stPromotable fixVerId [] = (.error UpdErr.noFields, stPromotable) ∧
    (setClauses [(keyStatus, GoVal.vstr strBuilding)] ≠ [] ∧
      distinctColumns (setClauses [(keyStatus, GoVal.vstr strBuilding)]) = true ∧
      stPromotable.versions.find? (fun v => v.id = fixVerId) = some verCompleted ∧
      ∃ updated,
        (updateVersion stPromotable fixVerId [(keyStatus, GoVal.vstr strBuilding)]).1 =
          .ok updated ∧
        updated = (setClauses [(keyStatus, GoVal.vstr strBuilding)]).foldl applyClause
          verCompleted ∧
        ((updateVersion stPromotable fixVerId
            [(keyStatus, GoVal.vstr strBuilding)]).2.versions.find?
          (fun v => v.id = fixVerId)) = some updated) ∧
    (distinctColumns
        (setClauses [(keyS3CodePath, GoVal.vstr fixUrl1), (keyS3Key, GoVal.vstr fixUrl2)])
        = false ∧
      updateVersion stPromotable fixVerId
          [(keyS3CodePath, GoVal.vstr fixUrl1), (keyS3Key, GoVal.vstr fixUrl2)] =
        (.error UpdErr.duplicateColumn, stPromotable)) :=
  ⟨rfl,
   (c9_update_allow_list stPromotable fixVerId []).1 rfl,
   ⟨by decide, rfl, rfl,
    (c9_update_allow_list stPromotable fixVerId
      [(keyStatus, GoVal.vstr strBuilding)]).2.1 (by decide) rfl verCompleted rfl⟩,
   rfl,
   (c9_update_allow_list stPromotable fixVerId
     [(keyS3CodePath, GoVal.vstr fixUrl1), (keyS3Key, GoVal.vstr fixUrl2)]).2.2 rfl⟩

/-- C10: an error_message entry whose value is a plain string is not
recognized (the source asserts a pointer-to-string for this key only),
so a call supplying only a plain-string error_message fails with the
no-fields error and leaves the store unchanged, while a pointer-valued
error_message entry is recognized as a SET clause. -/
theorem c10_error_message_pointer_only (st : DBState) (versionID : GoStr) (s0 : GoStr) :
    setClauses [(keyErrorMessage, GoVal.vstr s0)] = [] ∧
    updateVersion st versionID [(keyErrorMessage, GoVal.vstr s0)] =
      (.error UpdErr.noFields, st) ∧
    (∀ p : Option GoStr,
      setClauses [(keyErrorMessage, GoVal.vptr p)] = [FieldSet.setErrorMessage p]) :=
  ⟨rfl, rfl, fun _ => rfl⟩

/-- C3 counterexample: with a failing persistence update, the pipeline
does not resolve the owner email, does not invoke the registry create
command and does not launch logo generation, contradicting the claim
that these stages still execute. -/
theorem c3_counterexample :
    (extractConfigAndSetupApp fixAppId fixUserId (.ok defaultAppConfig) false
        (.ok fixEmail) true).registryCreateCalled = false ∧
    (extractConfigAndSetupApp fixAppId fixUserId (.ok defaultAppConfig) false
        (.ok fixEmail) true).logoLaunched = false ∧
    (extractConfigAndSetupApp fixAppId fixUserId (.ok defaultAppConfig) false
        (.ok fixEmail) true).emailResolved = false :=
  ⟨rfl, rfl, rfl⟩

/-- C3 amended: if the persistence update that writes the AI-resolved
configuration fails, the failure is only logged and the pipeline stops:
owner-email resolution, the registry create sync and logo generation do
not execute. -/
theorem c3_persistence_failure_aborts (appID userID : GoStr)
    (gemini : Except GoStr AppConfig) (emailLookup : Except GoStr GoStr)
    (registryOk : Bool) :
    (extractConfigAndSetupApp appID userID gemini false emailLookup registryOk).emailResolved
        = false ∧
    (extractConfigAndSetupApp appID userID gemini false emailLookup
        registryOk).registryCreateCalled = false ∧
    (extractConfigAndSetupApp appID userID gemini false emailLookup registryOk).logoLaunched
        = false ∧
    (extractConfigAndSetupApp appID userID gemini false emailLookup registryOk).dbUpdateOk
        = false :=
  ⟨rfl, rfl, rfl, rfl⟩

/-- Helper: the generated production domain always contains the joining
hyphen, so it is never empty. -/
theorem genDomain_ne_nil (name appID : GoStr) :
    GenerateProductionDomain name appID ≠ [] := by
  simp only [GenerateProductionDomain]
  intro hc
  rcases List.append_eq_nil.mp hc with ⟨h1, h2⟩
  rcases List.append_eq_nil.mp h1 with ⟨h3, h4⟩
  exact List.cons_ne_nil _ _ h4

/-- C5: config-extraction failure is never fatal. The synchronous create
returns a record with the placeholder name, display name, category,
color scheme, a non-empty production hostname and status building, and
this record is built before and independently of the extraction; on any
extraction error the detached pipeline substitutes the fixed default
configuration (brand MyApp, display My App, auth required, signup
allowed, category other, keywords app, color blue), writes the fallback
name, and continues through owner-email resolution, registry sync and
logo generation. -/
theorem c5_extraction_failure_never_fatal (now : Nat) (appID userID : GoStr)
    (description : Option GoStr) :
    (∃ a, createApp now appID userID description true = .ok a ∧
      a.name = strMyApp ∧ a.displayName = some strMyAppDisplay ∧
      a.category = some strOther ∧ a.colorScheme = some strBlue ∧
      a.status = strBuilding ∧
      ∃ u, a.productionUrl = some u ∧ u ≠ []) ∧
    (∀ (e : GoStr) (emailLookup : Except GoStr GoStr) (registryOk : Bool),
      (extractConfigAndSetupApp appID userID (.error e) true emailLookup
          registryOk).usedConfig = defaultAppConfig ∧
      (extractConfigAndSetupApp appID userID (.error e) true emailLookup
          registryOk).attemptedDbWrite.1 = strMyApp ∧
      (extractConfigAndSetupApp appID userID (.error e) true emailLookup
          registryOk).emailResolved = true ∧
      (extractConfigAndSetupApp appID userID (.error e) true emailLookup
          registryOk).registryCreateCalled = true ∧
      (extractConfigAndSetupApp appID userID (.error e) true emailLookup
          registryOk).logoLaunched = true) := by
  constructor
  · exact ⟨_, rfl, rfl, rfl, rfl, rfl, rfl,
      GenerateProductionDomain strMyApp appID, rfl, genDomain_ne_nil _ _⟩
  · intro e emailLookup registryOk
    exact ⟨rfl, rfl, rfl, rfl, rfl⟩

/-- C2 counterexample: create, create, delete the second version, create
again; the second create is assigned number 2, and after its deletion
the third create computes max of existing plus one and is assigned
number 2 again, so assigned numbers are reused and the full assignment
history is not pairwise distinct. -/
theorem c2_counterexample :
    assignedNumbers emptyDB
        [VOp.vcreate fixV1 fixAppId, VOp.vcreate fixV2 fixAppId,
         VOp.vdelete fixV2, VOp.vcreate fixV3 fixAppId] = [1, 2, 2] ∧
    ¬ List.Pairwise (fun a b => a ≠ b)
        (assignedNumbers emptyDB
          [VOp.vcreate fixV1 fixAppId, VOp.vcreate fixV2 fixAppId,
           VOp.vdelete fixV2, VOp.vcreate fixV3 fixAppId]) :=
  ⟨by decide, by decide⟩

/-- Helper: the fold starting value is below the fold of the maxima. -/
theorem init_le_foldl_max (l : List GoVersion) :
    ∀ init : Int, init ≤ l.foldl (fun m w => max m w.versionNumber) init := by
  induction l with
  | nil => intro init; simp
  | cons a as ih =>
    intro init
    rw [List.foldl_cons]
    exact le_trans (le_max_left _ _) (ih _)

/-- Helper: every member of the list is below the fold of the maxima. -/
theorem mem_le_foldl_max (v : GoVersion) :
    ∀ (l : List GoVersion) (init : Int), v ∈ l →
      v.versionNumber ≤ l.foldl (fun m w => max m w.versionNumber) init := by
  intro l
  induction l with
  | nil => intro init hv; cases hv
  | cons a as ih =>
    intro init hv
    rw [List.foldl_cons]
    rcases List.mem_cons.mp hv with h | h
    · subst h
      exact le_trans (le_max_right _ _) (init_le_foldl_max as _)
    · exact ih _ h

/-- Helper: every existing number of an application is strictly below
the number the next create of that application would assign. -/
theorem appNumbers_lt_next (st : DBState) (appID : GoStr) (x : Int)
    (hx : x ∈ appNumbers st appID) :
    x < maxVersionNumber st.versions appID + 1 := by
  rcases List.mem_map.mp hx with ⟨v, hv, rfl⟩
  have h := mem_le_foldl_max v (st.versions.filter (fun w => w.appId = appID)) 0 hv
  unfold maxVersionNumber
  omega

/-- Helper: appending one row to the versions table extends the number
list of its application and leaves every other application unchanged. -/
theorem appNumbers_append_one (st : DBState) (v : GoVersion) (a : GoStr) :
    appNumbers { st with versions := st.versions ++ [v] } a =
      appNumbers st a ++ (if v.appId = a then [v.versionNumber] else []) := by
  by_cases h : v.appId = a <;>
    simp [appNumbers, List.filter_append, List.filter_cons, h]

/-- Helper: one create or delete step preserves strict increase of the
existing version numbers of every application. -/
theorem stepOp_pairwise (st : DBState) (op : VOp)
    (h : ∀ a, List.Pairwise (fun x y => x < y) (appNumbers st a)) :
    ∀ a, List.Pairwise (fun x y => x < y) (appNumbers (stepOp st op) a) := by
  intro a
  cases op with
  | vcreate newID appID =>
    show List.Pairwise _ (appNumbers (createVersion st 0 newID appID).2 a)
    rw [show (createVersion st 0 newID appID).2 =
        { st with versions := st.versions ++ [(createVersion st 0 newID appID).1] } from rfl]
    rw [appNumbers_append_one]
    by_cases ha : (createVersion st 0 newID appID).1.appId = a
    · rw [if_pos ha]
      rw [List.pairwise_append]
      refine ⟨h a, List.pairwise_singleton _ _, ?_⟩
      intro x hx y hy
      rw [List.mem_singleton] at hy
      subst hy
      have hx2 : x < maxVersionNumber st.versions a + 1 :=
        appNumbers_lt_next st a x hx
      have haa : (createVersion st 0 newID appID).1.appId = appID := rfl
      rw [haa] at ha
      subst ha
      exact hx2
    · rw [if_neg ha, List.append_nil]
      exact h a
  | vdelete versionID =>
    show List.Pairwise _ (appNumbers (deleteVersion st versionID).2 a)
    unfold deleteVersion
    by_cases hlen :
        (st.versions.filter (fun v => !(v.id = versionID))).length = st.versions.length
    · simp only [hlen, if_pos rfl]
      exact h a
    · simp only [if_neg hlen]
      refine List.Pairwise.sublist ?_ (h a)
      exact (((List.filter_sublist st.versions).filter _).map _)

/-- Helper: running a sequence of operations preserves strict increase
of the existing version numbers of every application. -/
theorem runOps_pairwise (ops : List VOp) : ∀ st : DBState,
    (∀ a, List.Pairwise (fun x y => x < y) (appNumbers st a)) →
    ∀ a, List.Pairwise (fun x y => x < y) (appNumbers (runOps st ops) a) := by
  induction ops with
  | nil => intro st h a; exact h a
  | cons op rest ih =>
    intro st h a
    exact ih (stepOp st op) (stepOp_pairwise st op h) a

/-- C2 amended: for every application and every sequence of create and
delete operations from the empty store, the numbers of the existing
versions are strictly increasing in creation order, hence pairwise
distinct, and a create executed next is assigned a number strictly above
every existing number of that application (its maximum plus one, so 1
when the application has no versions); a number can however be assigned
again after the versions holding the maximum are deleted. -/
theorem c2_version_numbers_amended (ops : List VOp) (appID : GoStr) (now : Nat)
    (newID : GoStr) :
    List.Pairwise (fun a b => a < b)
      (appNumbers (runOps emptyDB ops) appID ++
        [(createVersion (runOps emptyDB ops) now newID appID).1.versionNumber]) ∧
    appNumbers emptyDB appID = [] ∧
    (createVersion emptyDB now newID appID).1.versionNumber = 1 := by
  refine ⟨?_, rfl, rfl⟩
  rw [List.pairwise_append]
  refine ⟨runOps_pairwise ops emptyDB (fun a => by simp [appNumbers, emptyDB]) appID,
    List.pairwise_singleton _ _, ?_⟩
  intro x hx y hy
  rw [List.mem_singleton] at hy
  subst hy
  exact appNumbers_lt_next (runOps emptyDB ops) appID x hx

/-- Helper: the SET clauses of a status-only update map. -/
theorem setClauses_status (x : GoStr) :
    setClauses [(keyStatus, GoVal.vstr x)] = [FieldSet.setStatus x] := rfl

/-- Helper: a single status clause targets no column twice. -/
theorem distinctColumns_status (x : GoStr) :
    distinctColumns [FieldSet.setStatus x] = true := rfl

/-- Helper: after the final status write of a promotion, the row found
under the version identifier is the original row marked promoted. -/
theorem find?_versions_promoted (l : List GoVersion) (versionID : GoStr)
    (version : GoVersion)
    (hv : l.find? (fun v => v.id = versionID) = some version) :
    (l.map (fun w => if w.id = versionID then { w with status := strPromoted } else w)).find?
      (fun v => v.id = versionID) = some { version with status := strPromoted } := by
  rw [List.find?_map]
  have hid : version.id = versionID := by simpa using List.find?_some hv
  have hfun : ((fun v : GoVersion => (v.id = versionID : Bool)) ∘
      (fun w => if w.id = versionID then { w with status := strPromoted } else w)) =
      (fun v : GoVersion => (v.id = versionID : Bool)) := by
    funext w
    by_cases hw : w.id = versionID <;> simp [hw]
  rw [hfun, hv]
  simp [hid]

/-- Helper: after the prod_version write of a promotion, the app found
under the application identifier is the original app with the pointer
set. -/
theorem find?_apps_updated (l : List GoApp) (appID : GoStr) (app : GoApp) (n : Int)
    (now : Nat)
    (ha : l.find? (fun a => a.id = appID) = some app) :
    (l.map (fun a =>
        if a.id = appID then { a with prodVersion := some n, updatedAt := now } else a)).find?
      (fun a => a.id = appID) = some { app with prodVersion := some n, updatedAt := now } := by
  rw [List.find?_map]
  have hid : app.id = appID := by simpa using List.find?_some ha
  have hfun : ((fun a : GoApp => (a.id = appID : Bool)) ∘
      (fun a => if a.id = appID then { a with prodVersion := some n, updatedAt := now } else a)) =
      (fun a : GoApp => (a.id = appID : Bool)) := by
    funext a
    by_cases hw : a.id = appID <;> simp [hw]
  rw [hfun, ha]
  simp [hid]

/-- Helper: when every precondition holds and the platform call
succeeds, PromoteVersion returns success, sets the prod_version pointer
of the owning application, marks the version promoted, and issued
exactly one platform call. -/
theorem promoteVersion_success_shape
    (vercel : GoStr → GoStr → Except VercelErr Unit) (now : Nat) (st : DBState)
    (versionID : GoStr) (version : GoVersion) (app : GoApp) (deployID projectID : GoStr)
    (hver : st.versions.find? (fun v => v.id = versionID) = some version)
    (hst : version.status = strCompleted)
    (hdep : version.vercelDeployId = some deployID) (hdep2 : ¬(deployID = []))
    (happ : st.apps.find? (fun a => a.id = version.appId) = some app)
    (hprj : app.vercelProjectId = some projectID) (hprj2 : ¬(projectID = []))
    (hok : vercel projectID deployID = .ok ()) :
    promoteVersion vercel now st versionID =
      (.ok (),
       { apps := st.apps.map (fun a =>
           if a.id = version.appId then
             { a with prodVersion := some version.versionNumber, updatedAt := now }
           else a),
         versions := st.versions.map (fun w =>
           if w.id = versionID then { w with status := strPromoted } else w) },
       [(projectID, deployID)]) := by
  simp only [promoteVersion, hver, hst, hdep, happ, hprj, hok]
  simp [hdep2, hprj2, updateVersion, setClauses_status, distinctColumns_status, hver,
    applyClause]

/-- C1 counterexample: on a completed version with a deployment build
identifier, owned by an application with a project identifier, and a
platform that always succeeds, the first PromoteVersion invocation
succeeds but the second is rejected with the invalid-state error,
because the first one moved the version to status promoted. -/
theorem c1_counterexample :
    (promoteVersion vercelAlwaysOk 0 stPromotable fixVerId).1 = .ok () ∧
    (promoteVersion vercelAlwaysOk 0
        (promoteVersion vercelAlwaysOk 0 stPromotable fixVerId).2.1 fixVerId).1 =
      .error (PromoteErr.invalidState strPromoted) :=
  ⟨rfl, rfl⟩

/-- C1 amended: under the stated preconditions and an always-succeeding
platform, the first PromoteVersion invocation succeeds, sets the
prod_version pointer of the owning application to the versionNumber of
the version and marks the version promoted; a second invocation on the
same version is rejected with the invalid-state error without touching
the store or the platform, so the pointer still equals that
versionNumber. Promotion is idempotent on the platform side only; the
service-level operation is not repeatable after full success. -/
theorem c1_promotion_amended (vercel : GoStr → GoStr → Except VercelErr Unit)
    (now now2 : Nat) (st : DBState) (versionID : GoStr)
    (version : GoVersion) (app : GoApp) (deployID projectID : GoStr)
    (hres : ∀ p d, vercel p d = .ok ())
    (hver : st.versions.find? (fun v => v.id = versionID) = some version)
    (hst : version.status = strCompleted)
    (hdep : version.vercelDeployId = some deployID) (hdep2 : ¬(deployID = []))
    (happ : st.apps.find? (fun a => a.id = version.appId) = some app)
    (hprj : app.vercelProjectId = some projectID) (hprj2 : ¬(projectID = [])) :
    (promoteVersion vercel now st versionID).1 = .ok () ∧
    ((promoteVersion vercel now st versionID).2.1.apps.find?
        (fun a => a.id = version.appId)).map (fun a => a.prodVersion) =
      some (some version.versionNumber) ∧
    ((promoteVersion vercel now st versionID).2.1.versions.find?
        (fun v => v.id = versionID)).map (fun v => v.status) = some strPromoted ∧
    promoteVersion vercel now2 (promoteVersion vercel now st versionID).2.1 versionID =
      (.error (PromoteErr.invalidState strPromoted),
       (promoteVersion vercel now st versionID).2.1, []) := by
  have h1 := promoteVersion_success_shape vercel now st versionID version app deployID
    projectID hver hst hdep hdep2 happ hprj hprj2 (hres projectID deployID)
  refine ⟨?_, ?_, ?_, ?_⟩
  · rw [h1]
  · rw [h1]
    have h2 := find?_apps_updated st.apps version.appId app version.versionNumber now happ
    simp [h2]
  · rw [h1]
    have h3 := find?_versions_promoted st.versions versionID version hver
    simp [h3]
  · rw [h1]
    have h3 := find?_versions_promoted st.versions versionID version hver
    have hne : ¬(strPromoted = strCompleted) := by decide
    simp only [promoteVersion, h3]
    simp [hne]

/-- C1 amended witness: the amended theorem instantiated on the
promotable fixture. -/
theorem c1_promotion_amended_witness :
    (∀ p d, vercelAlwaysOk p d = .ok ()) ∧
    stPromotable.versions.find? (fun v => v.id = fixVerId) = some verCompleted ∧
    verCompleted.status = strCompleted ∧
    ((promoteVersion vercelAlwaysOk 0 stPromotable fixVerId).1 = .ok () ∧
      ((promoteVersion vercelAlwaysOk 0 stPromotable fixVerId).2.1.apps.find?
          (fun a => a.id = verCompleted.appId)).map (fun a => a.prodVersion) =
        some (some verCompleted.versionNumber) ∧
      ((promoteVersion vercelAlwaysOk 0 stPromotable fixVerId).2.1.versions.find?
          (fun v => v.id = fixVerId)).map (fun v => v.status) = some strPromoted ∧
      promoteVersion vercelAlwaysOk 0
          (promoteVersion vercelAlwaysOk 0 stPromotable fixVerId).2.1 fixVerId =
        (.error (PromoteErr.invalidState strPromoted),
         (promoteVersion vercelAlwaysOk 0 stPromotable fixVerId).2.1, [])) :=
  ⟨fun _ _ => rfl, rfl, rfl,
   c1_promotion_amended vercelAlwaysOk 0 0 stPromotable fixVerId verCompleted appA
     fixDeployId fixProjectId (fun _ _ => rfl) rfl rfl rfl (by decide) rfl rfl (by decide)⟩

/-- C4: PromoteVersion checks its preconditions in order, failing with a
distinct error constructor for each precondition (version missing;
status other than completed, including promoted; deployment build
identifier missing or empty; application row missing; project
identifier missing or empty), leaves the store unchanged in every such
failure, and issues a platform call only when every precondition holds. -/
theorem c4_promotion_preconditions (vercel : GoStr → GoStr → Except VercelErr Unit)
    (now : Nat) (st : DBState) (versionID : GoStr) :
    (st.versions.find? (fun v => v.id = versionID) = none →
      promoteVersion vercel now st versionID =
        (.error PromoteErr.versionNotFound, st, [])) ∧
    (∀ version, st.versions.find? (fun v => v.id = versionID) = some version →
      (¬(version.status = strCompleted) →
        promoteVersion vercel now st versionID =
          (.error (PromoteErr.invalidState version.status), st, [])) ∧
      (version.status = strCompleted →
        (version.vercelDeployId = none ∨ version.vercelDeployId = some [] →
          promoteVersion vercel now st versionID =
            (.error PromoteErr.missingDeployment, st, [])) ∧
        (∀ deployID, version.vercelDeployId = some deployID → ¬(deployID = []) →
          (st.apps.find? (fun a => a.id = version.appId) = none →
            promoteVersion vercel now st versionID =
              (.error PromoteErr.appFetchFailed, st, [])) ∧
          (∀ app, st.apps.find? (fun a => a.id = version.appId) = some app →
            app.vercelProjectId = none ∨ app.vercelProjectId = some [] →
            promoteVersion vercel now st versionID =
              (.error PromoteErr.missingProject, st, []))))) ∧
    ((promoteVersion vercel now st versionID).2.2 ≠ [] →
      ∃ version deployID app projectID,
        st.versions.find? (fun v => v.id = versionID) = some version ∧
        version.status = strCompleted ∧
        version.vercelDeployId = some deployID ∧ ¬(deployID = []) ∧
        st.apps.find? (fun a => a.id = version.appId) = some app ∧
        app.vercelProjectId = some projectID ∧ ¬(projectID = [])) := by
  refine ⟨?_, ?_, ?_⟩
  · intro h
    simp [promoteVersion, h]
  · intro version hv
    refine ⟨?_, ?_⟩
    · intro hs
      simp [promoteVersion, hv, hs]
    · intro hs
      refine ⟨?_, ?_⟩
      · rintro (hd | hd) <;> simp [promoteVersion, hv, hs, hd]
      · intro deployID hd hd2
        refine ⟨?_, ?_⟩
        · intro ha
          simp [promoteVersion, hv, hs, hd, hd2, ha]
        · intro app ha hp
          rcases hp with hp | hp <;> simp [promoteVersion, hv, hs, hd, hd2, ha, hp]
  · intro hcalls
    cases hv : st.versions.find? (fun v => v.id = versionID) with
    | none => simp [promoteVersion, hv] at hcalls
    | some version =>
      by_cases hs : version.status = strCompleted
      · cases hd : version.vercelDeployId with
        | none => simp [promoteVersion, hv, hs, hd] at hcalls
        | some deployID =>
          by_cases hd2 : deployID = []
          · simp [promoteVersion, hv, hs, hd, hd2] at hcalls
          · cases ha : st.apps.find? (fun a => a.id = version.appId) with
            | none => simp [promoteVersion, hv, hs, hd, hd2, ha] at hcalls
            | some app =>
              cases hp : app.vercelProjectId with
              | none => simp [promoteVersion, hv, hs, hd, hd2, ha, hp] at hcalls
              | some projectID =>
                by_cases hp2 : projectID = []
                · simp [promoteVersion, hv, hs, hd, hd2, ha, hp, hp2] at hcalls
                · exact ⟨version, deployID, app, projectID, rfl, hs, hd, hd2, ha, hp, hp2⟩
      · simp [promoteVersion, hv, hs] at hcalls

/-- C4 witness: the theorem applied to the fixture with a pending
version: the invalid-state error is produced, without a platform call
and without a store change. -/
theorem c4_promotion_preconditions_witness :
    stPending.versions.find? (fun v => v.id = fixVerId) = some verPending ∧
    ¬(verPending.status = strCompleted) ∧
    promoteVersion vercelAlwaysOk 0 stPending fixVerId =
      (.error (PromoteErr.invalidState verPending.status), stPending, []) :=
  ⟨rfl, by decide,
   ((c4_promotion_preconditions vercelAlwaysOk 0 stPending fixVerId).2.1 verPending
     rfl).1 (by decide)⟩

/-- C6: the promotion client treats 201 and 202 as success and the 409
conflict whose body contains the already-production marker as success;
every other response yields an error value, and when PromoteVersion
reaches the platform call and the client returns an error, that same
error value is surfaced to the caller inside the platform-failure
constructor, with the store unchanged. -/
theorem c6_platform_conflict (resp : HttpResp) :
    ((resp.status = 201 ∨ resp.status = 202) → PromoteDeployment resp = .ok ()) ∧
    (resp.status = 409 → containsSub magicConflictBody resp.body = true →
      PromoteDeployment resp = .ok ()) ∧
    (¬(resp.status = 201) → ¬(resp.status = 202) →
      ¬(resp.status = 409 ∧ containsSub magicConflictBody resp.body = true) →
      ∃ e, PromoteDeployment resp = .error e) ∧
    (∀ (responder : GoStr → GoStr → HttpResp) (now : Nat) (st : DBState)
        (versionID : GoStr) (version : GoVersion) (app : GoApp)
        (deployID projectID : GoStr) (e : VercelErr),
      st.versions.find? (fun v => v.id = versionID) = some version →
      version.status = strCompleted →
      version.vercelDeployId = some deployID → ¬(deployID = []) →
      st.apps.find? (fun a => a.id = version.appId) = some app →
      app.vercelProjectId = some projectID → ¬(projectID = []) →
      PromoteDeployment (responder projectID deployID) = .error e →
      promoteVersion (fun p d => PromoteDeployment (responder p d)) now st versionID =
        (.error (PromoteErr.platformFailed e), st, [(projectID, deployID)])) := by
  refine ⟨?_, ?_, ?_, ?_⟩
  · rintro (h | h) <;> simp [PromoteDeployment, h]
  · intro h hc
    simp [PromoteDeployment, h, hc]
  · intro h1 h2 h3
    by_cases h409 : resp.status = 409
    · have hc : containsSub magicConflictBody resp.body = false := by
        rcases Bool.eq_false_or_eq_true (containsSub magicConflictBody resp.body) with h | h
        · exact absurd ⟨h409, h⟩ h3
        · exact h
      exact ⟨VercelErr.promotionConflict resp.body, by simp [PromoteDeployment, h409, hc]⟩
    · exact ⟨VercelErr.promotionFailed resp.status resp.body,
        by simp [PromoteDeployment, h1, h2, h409]⟩
  · intro responder now st versionID version app deployID projectID e
      hv hs hd hd2 ha hp hp2 herr
    simp [promoteVersion, hv, hs, hd, hd2, ha, hp, hp2, herr]

/-- C6 witness: a 409 response carrying the already-production marker is
reclassified as success by the theorem. -/
theorem c6_platform_conflict_witness :
    ({ status := 409, body := magicConflictBody } : HttpResp).status = 409 ∧
    containsSub magicConflictBody
      ({ status := 409, body := magicConflictBody } : HttpResp).body = true ∧
    PromoteDeployment { status := 409, body := magicConflictBody } = .ok () :=
  ⟨rfl, by decide,
   (c6_platform_conflict { status := 409, body := magicConflictBody }).2.1 rfl (by decide)⟩

end PlatformApi
